import Mathlib

/-!
Verification of the sereal-rs decoder (Sereal binary format, protocol v2-v4).

This file gives a shallow embedding of the decoder sources:
  - varint.rs       (parse_varint, parse_zigzag)
  - parser.rs       (Parser::parse_inner and helpers, over the Builder API)
  - arc.rs          (the reference-counted builder: cells with identity)
  - de.rs           (the serde adapter: Deserializer::deserialize_any)
  - header.rs       (Header::read)
  - config.rs       (Config)

Machine integers are modelled as Nat with explicit reductions mod 2^64 where
the Rust code can wrap; usize subtraction that would underflow, and the
unimplemented macro, are modelled by a distinct panic outcome, matching the
behaviour of an overflow-checked build.

Cells produced by the builder have identity: the store is a list of cell
contents and a handle is an index into it.  This mirrors arc.rs, where a
Value is a shared handle onto interior-mutable contents, so that aliasing
and self-reference are observable.
-/

namespace Sereal

/-- Outcome of running a fallible piece of decoder code.  ok/err mirror
Result in the Rust sources; panic models unimplemented and checked-arithmetic
aborts; noFuel is the interpreter running out of fuel (never a claim). -/
inductive Res (ε : Type) (α : Type) where
  | ok (a : α)
  | err (e : ε)
  | panic
  | noFuel
deriving DecidableEq, Repr

instance : Monad (Res ε) where
  pure := Res.ok
  bind := fun x f =>
    match x with
    | .ok a => f a
    | .err e => .err e
    | .panic => .panic
    | .noFuel => .noFuel

/-- True when the outcome is a successful value. -/
def Res.isOk : Res ε α → Bool
  | .ok _ => true
  | _ => false

/-- Errors of the varint codec (varint.rs, enum Error). -/
inductive VErr where
  | overflow
  | unexpectedEof
deriving DecidableEq, Repr

/-- varint.rs parse_varint: little-endian base-128 accumulation over a byte
slice, at most 10 bytes, 64-bit wrap on the accumulator.  Returns the value
and the number of bytes consumed.  The io-cursor variant used by parser.rs
and header.rs (VarintReaderExt::read_varint) computes the same function:
both stop at the first byte with a clear high bit, both reject an 11th
continuation byte, and both shift by 7 bits per byte up to bit 63. -/
def parse_varint_go : List Nat → Nat → Nat → Except VErr (Nat × Nat)
  | [], _, _ => .error .unexpectedEof
  | b :: rest, a, o =>
    let a := (a ||| ((b &&& 0x7f) <<< (o * 7))) % 2 ^ 64
    let o := o + 1
    if b &&& 0x80 == 0 then .ok (a, o)
    else if o ≥ 10 then .error .overflow
    else parse_varint_go rest a o

def parse_varint (buf : List Nat) : Except VErr (Nat × Nat) :=
  parse_varint_go buf 0 0

/-- varint.rs straighten: zig-zag decoding of an unsigned 64-bit value. -/
def straighten (v : Nat) : Int :=
  if v % 2 == 0 then Int.ofNat (v / 2) else -(Int.ofNat (v / 2)) - 1

def parse_zigzag (buf : List Nat) : Except VErr (Int × Nat) :=
  match parse_varint buf with
  | .ok (v, n) => .ok (straighten v, n)
  | .error e => .error e

/-- config.rs Config, with the defaults of Config::default. -/
structure Config where
  max_suffix_len : Nat
  max_string_len : Nat
  max_compressed_size : Nat
  max_uncompressed_size : Nat
  max_array_size : Nat
  max_hash_size : Nat
deriving DecidableEq, Repr

def Config.default : Config :=
  { max_suffix_len := 1000000
    max_string_len := 1000000
    max_compressed_size := 100000000
    max_uncompressed_size := 100000000
    max_array_size := 1000000
    max_hash_size := 1000000 }

def Config.with_max_string_len (c : Config) (n : Nat) : Config :=
  { c with max_string_len := n }

/-- parser.rs enum Error. -/
inductive PErr where
  | invalidType
  | invalidRef (p : Nat)
  | invalidCopy
  | unexpectedEof
  | offsetOverflow
  | arrayTooLarge (count limit : Nat)
  | hashTooLarge (count limit : Nat)
  | varintError (e : VErr)
deriving DecidableEq, Repr

/-- Cell contents of the arc.rs builder (enum Inner).  Handles are store
indices; Ref/WeakRef/Array/Hash/Object hold handles of other cells.  Floats
are kept as their little-endian bit patterns (the parser never computes with
them).  Both Inner::String arms (set_binary and set_string) are the str
constructor, as in arc.rs. -/
inductive Inner where
  | undef
  | i64 (v : Int)
  | u64 (v : Nat)
  | f32bits (v : Nat)
  | f64bits (v : Nat)
  | str (s : List Nat)
  | ref (h : Nat)
  | weakref (h : Nat)
  | array (hs : List Nat)
  | hash (kvs : List (List Nat × Nat))
  | object (cls : List Nat) (h : Nat)
  | bool (b : Bool)
  | regexp (pat : List Nat) (fl : List Nat)
deriving DecidableEq, Repr

/-- Parser state (parser.rs struct Parser): cursor, tracking table,
copy cursor, and the builder store of cells. -/
structure PState where
  pos : Nat
  track : List (Nat × Nat)
  copy_pos : Nat
  store : List Inner
deriving DecidableEq, Repr

/-- HashMap::insert on the tracking table: replaces any previous binding. -/
def track_insert (t : List (Nat × Nat)) (k v : Nat) : List (Nat × Nat) :=
  (k, v) :: t.filter (fun p => p.1 ≠ k)

/-- HashMap::get on the tracking table. -/
def track_get (t : List (Nat × Nat)) (k : Nat) : Option Nat :=
  (t.find? (fun p => p.1 == k)).map (fun p => p.2)

/-- Builder::new of arc.rs: allocate a fresh Undef cell, return its handle. -/
def new_cell (s : PState) : Nat × PState :=
  (s.store.length, { s with store := s.store ++ [Inner.undef] })

/-- A setter on the cell behind handle h (interior mutation). -/
def set_cell (s : PState) (h : Nat) (v : Inner) : PState :=
  { s with store := s.store.set h v }

/-- Value::to_string of arc.rs: the cell must read as a string. -/
def cell_str (s : PState) (h : Nat) : Res PErr (List Nat) :=
  match s.store.get? h with
  | some (.str bs) => .ok bs
  | _ => .err .invalidType

/-- HashMap::insert for hash bodies: replaces any previous binding. -/
def hash_insert (kvs : List (List Nat × Nat)) (k : List Nat) (v : Nat) :
    List (List Nat × Nat) :=
  kvs.filter (fun p => p.1 ≠ k) ++ [(k, v)]

/-- parser.rs read_tag: skip PAD bytes (type bits 0x3f), return the next
byte and advance; UnexpectedEof at the end of the buffer.  The auxiliary
fuel is the number of bytes left, which bounds the PAD skip loop. -/
def read_tag_go (input : List Nat) : Nat → Nat → Res PErr (Nat × Nat)
  | 0, _ => .err .unexpectedEof
  | k + 1, pos =>
    match input.get? pos with
    | none => .err .unexpectedEof
    | some b =>
      if b &&& 0x7f == 0x3f then read_tag_go input k (pos + 1)
      else .ok (b, pos + 1)

def read_tag (input : List Nat) (s : PState) : Res PErr (Nat × PState) :=
  match read_tag_go input (input.length - s.pos) s.pos with
  | .ok (b, pos) => .ok (b, { s with pos := pos })
  | .err e => .err e
  | .panic => .panic
  | .noFuel => .noFuel

/-- parser.rs read_varint (via the io cursor at the current position). -/
def read_varint (input : List Nat) (s : PState) : Res PErr (Nat × PState) :=
  match parse_varint (input.drop s.pos) with
  | .ok (v, n) => .ok (v, { s with pos := s.pos + n })
  | .error .unexpectedEof => .err .unexpectedEof
  | .error .overflow => .err (.varintError .overflow)

/-- parser.rs read_zigzag. -/
def read_zigzag (input : List Nat) (s : PState) : Res PErr (Int × PState) :=
  match parse_zigzag (input.drop s.pos) with
  | .ok (v, n) => .ok (v, { s with pos := s.pos + n })
  | .error .unexpectedEof => .err .unexpectedEof
  | .error .overflow => .err (.varintError .overflow)

/-- parser.rs read_varlen: a varint that must fit usize
(strictly below usize::MAX, as the source tests len < usize::max_value). -/
def read_varlen (input : List Nat) (s : PState) : Res PErr (Nat × PState) :=
  match read_varint input s with
  | .ok (v, s) => if v < 2 ^ 64 - 1 then .ok (v, s) else .err .offsetOverflow
  | .err e => .err e
  | .panic => .panic
  | .noFuel => .noFuel

/-- parser.rs read_bytes: checked_add on the cursor, then bounds check. -/
def read_bytes (input : List Nat) (len : Nat) (s : PState) :
    Res PErr (List Nat × PState) :=
  let beg := s.pos
  if s.pos + len ≥ 2 ^ 64 then .err .offsetOverflow
  else if s.pos + len ≤ input.length then
    .ok ((input.drop beg).take len, { s with pos := s.pos + len })
  else .err .unexpectedEof

/-- parser.rs read_f32: four little-endian bytes, kept as a bit pattern. -/
def read_f32 (input : List Nat) (s : PState) : Res PErr (Nat × PState) :=
  match read_bytes input 4 s with
  | .ok (bs, s) =>
    .ok (bs.foldr (fun b acc => acc * 256 + b) 0, s)
  | .err e => .err e
  | .panic => .panic
  | .noFuel => .noFuel

/-- parser.rs read_f64: eight little-endian bytes, kept as a bit pattern. -/
def read_f64 (input : List Nat) (s : PState) : Res PErr (Nat × PState) :=
  match read_bytes input 8 s with
  | .ok (bs, s) =>
    .ok (bs.foldr (fun b acc => acc * 256 + b) 0, s)
  | .err e => .err e
  | .panic => .panic
  | .noFuel => .noFuel

/-- parser.rs do_copy, entry half: fail with InvalidCopy if a copy is
already in progress, read the 1-based target offset, save the cursor into
the copy cursor and seek to offset - 1.  The usize subtraction pos - 1
underflows when the stored offset decodes to 0; this is the panic case. -/
def do_copy_pre (input : List Nat) (s : PState) : Res PErr PState :=
  if s.copy_pos ≠ 0 then .err .invalidCopy
  else
    match read_varlen input s with
    | .ok (p, s1) =>
      if p = 0 then .panic
      else .ok { s1 with copy_pos := s1.pos, pos := p - 1 }
    | .err e => .err e
    | .panic => .panic
    | .noFuel => .noFuel

/-- parser.rs do_copy, exit half: restore the cursor, clear the copy
cursor. -/
def do_copy_post (s : PState) : PState :=
  { s with pos := s.copy_pos, copy_pos := 0 }

/-- parser.rs Parser::parse_array, iteration half: one value per slot via
the parse function (Rust: self.parse()), appended in order. -/
def array_iter (f : PState → Res PErr (Nat × PState)) :
    Nat → List Nat → PState → Res PErr (List Nat × PState)
  | 0, acc, s => .ok (acc, s)
  | n + 1, acc, s => do
    let (v, s) ← f s
    array_iter f n (acc ++ [v]) s

/-- parser.rs Parser::parse_array: size cap against max_array_size before
the builder would allocate, then the iteration. -/
def parse_array (cfg : Config) (f : PState → Res PErr (Nat × PState))
    (count : Nat) (s : PState) : Res PErr (List Nat × PState) :=
  if count > cfg.max_array_size then
    .err (.arrayTooLarge count cfg.max_array_size)
  else
    array_iter f count [] s

/-- parser.rs Parser::parse_hash, iteration half: each entry is a key via
the restricted key machine followed by a value via parse. -/
def hash_iter (kf : PState → Res PErr (List Nat × PState))
    (vf : PState → Res PErr (Nat × PState)) :
    Nat → List (List Nat × Nat) → PState →
    Res PErr (List (List Nat × Nat) × PState)
  | 0, acc, s => .ok (acc, s)
  | n + 1, acc, s => do
    let (k, s) ← kf s
    let (v, s) ← vf s
    hash_iter kf vf n (hash_insert acc k v) s

/-- parser.rs Parser::parse_hash: size cap against max_hash_size; the
copy cursor is saved and cleared around the whole hash body and restored
on success, so hash keys may themselves be COPY tags even when the hash
was reached via COPY. -/
def parse_hash (cfg : Config) (kf : PState → Res PErr (List Nat × PState))
    (vf : PState → Res PErr (Nat × PState)) (count : Nat) (s : PState) :
    Res PErr (List (List Nat × Nat) × PState) :=
  if count > cfg.max_hash_size then
    .err (.hashTooLarge count cfg.max_hash_size)
  else do
    let saved := s.copy_pos
    let (kvs, s) ← hash_iter kf vf count [] { s with copy_pos := 0 }
    pure (kvs, { s with copy_pos := saved })

/-- parser.rs Parser::parse_str: the restricted sub-machine for hash keys;
only SHORT_BINARY, BINARY, STR_UTF8 and COPY are accepted. -/
def parse_str (cfg : Config) (input : List Nat) (fuel : Nat) (s : PState) :
    Res PErr (List Nat × PState) :=
  match fuel with
  | 0 => .noFuel
  | fuel + 1 => do
    let (tag, s) ← read_tag input s
    let t := tag &&& 0x7f
    if 0x60 ≤ t ∧ t ≤ 0x7f then
      read_bytes input (t - 0x60) s
    else if t = 0x26 ∨ t = 0x27 then do
      let (len, s) ← read_varlen input s
      read_bytes input len s
    else if t = 0x2f then do
      let s1 ← do_copy_pre input s
      let (bs, s2) ← parse_str cfg input fuel s1
      pure (bs, do_copy_post s2)
    else
      .err .invalidType
termination_by structural fuel

/-- parser.rs Parser::parse_inner, one step, specialised to the arc.rs
builder: read a tag, allocate a cell, record it in the tracking table
(keyed by the cursor just past the tag byte, i.e. the 1-based position of
the tag byte) when the track bit or force_track demands it, then dispatch
on the type bits.  Recursive descents go through the rec_inner / rec_str
arguments (the parser one level of fuel down).  The returned handle is the
local value variable at the end of the arm, which set_alias (ALIAS, COPY)
rebinds to the alias target while the allocated cell and the tracking
table keep the original placeholder.  The catch-all arm is unimplemented
in parser.rs and is modelled as panic. -/
def parse_inner_step (cfg : Config) (input : List Nat)
    (rec_inner : Bool → PState → Res PErr (Nat × PState))
    (rec_str : PState → Res PErr (List Nat × PState))
    (force_track : Bool) (s : PState) : Res PErr (Nat × PState) := do
    let (tag, s) ← read_tag input s
    let t := tag &&& 0x7f
    let (v, s) := new_cell s
    let s :=
      if tag &&& 0x80 ≠ 0 ∨ force_track then
        { s with track := track_insert s.track s.pos v }
      else s
    if t ≤ 0x0f then
      pure (v, set_cell s v (.u64 t))
    else if t ≤ 0x1f then
      -- parser.rs:163 (tag | 0xf0) as i64 : a u8-to-i64 cast, zero-extended
      pure (v, set_cell s v (.i64 (Int.ofNat (t ||| 0xf0))))
    else if t = 0x20 then do
      let (n, s) ← read_varint input s
      pure (v, set_cell s v (.u64 n))
    else if t = 0x21 then do
      let (z, s) ← read_zigzag input s
      pure (v, set_cell s v (.i64 z))
    else if t = 0x22 then do
      let (b, s) ← read_f32 input s
      pure (v, set_cell s v (.f32bits b))
    else if t = 0x23 then do
      let (b, s) ← read_f64 input s
      pure (v, set_cell s v (.f64bits b))
    else if t = 0x25 ∨ t = 0x39 then
      pure (v, set_cell s v .undef)
    else if t = 0x26 then do
      let (len, s) ← read_varlen input s
      let (bs, s) ← read_bytes input len s
      pure (v, set_cell s v (.str bs))
    else if t = 0x27 then do
      let (len, s) ← read_varlen input s
      let (bs, s) ← read_bytes input len s
      pure (v, set_cell s v (.str bs))
    else if t = 0x28 then do
      let (c, s) ← rec_inner false s
      pure (v, set_cell s v (.ref c))
    else if t = 0x29 then do
      let (p, s) ← read_varlen input s
      match track_get s.track p with
      | some o => pure (v, set_cell s v (.ref o))
      | none => .err (.invalidRef p)
    else if t = 0x2a then do
      let (len, s) ← read_varint input s
      let (kvs, s) ← parse_hash cfg (rec_str)
        (rec_inner false) len s
      pure (v, set_cell s v (.hash kvs))
    else if t = 0x2b then do
      let (len, s) ← read_varint input s
      let (hs, s) ← parse_array cfg (rec_inner false) len s
      pure (v, set_cell s v (.array hs))
    else if t = 0x2c ∨ t = 0x32 then do
      -- OBJECT / OBJECT_FREEZE: arc.rs set_object_freeze delegates to
      -- set_object, which requires the class cell to read as a string
      let (c, s) ← rec_inner true s
      let (b, s) ← rec_inner false s
      let cls ← cell_str s c
      pure (v, set_cell s v (.object cls b))
    else if t = 0x2d ∨ t = 0x33 then do
      let (p, s) ← read_varlen input s
      match track_get s.track p with
      | some c => do
        let (b, s) ← rec_inner false s
        let cls ← cell_str s c
        pure (v, set_cell s v (.object cls b))
      | none => .err (.invalidRef p)
    else if t = 0x2e then do
      let (p, s) ← read_varlen input s
      match track_get s.track p with
      | some o => pure (o, s)
      | none => .err (.invalidRef p)
    else if t = 0x2f then do
      let s1 ← do_copy_pre input s
      let (c, s2) ← rec_inner false s1
      pure (c, do_copy_post s2)
    else if t = 0x30 then do
      let (c, s) ← rec_inner false s
      pure (v, set_cell s v (.weakref c))
    else if t = 0x31 then do
      let (p1, s) ← rec_inner false s
      let (p2, s) ← rec_inner false s
      let b1 ← cell_str s p1
      let b2 ← cell_str s p2
      pure (v, set_cell s v (.regexp b1 b2))
    else if t = 0x3a then
      -- FALSE: arc.rs:198 and arena.rs:62 both store Inner::Bool(true)
      pure (v, set_cell s v (.bool true))
    else if t = 0x3b then
      pure (v, set_cell s v (.bool true))
    else if 0x40 ≤ t ∧ t ≤ 0x4f then do
      let (hs, s) ← parse_array cfg (rec_inner false)
        (t - 0x40) s
      let (inner, s) := new_cell s
      let s := set_cell s inner (.array hs)
      pure (v, set_cell s v (.ref inner))
    else if 0x50 ≤ t ∧ t ≤ 0x5f then do
      let (kvs, s) ← parse_hash cfg (rec_str)
        (rec_inner false) (t - 0x50) s
      let (inner, s) := new_cell s
      let s := set_cell s inner (.hash kvs)
      pure (v, set_cell s v (.ref inner))
    else if 0x60 ≤ t ∧ t ≤ 0x7f then do
      let (bs, s) ← read_bytes input (t - 0x60) s
      pure (v, set_cell s v (.str bs))
    else
      .panic

/-- parser.rs Parser::parse_inner: the step at each fuel level, with the
recursive descents taken one level down. -/
def parse_inner (cfg : Config) (input : List Nat) (fuel : Nat)
    (force_track : Bool) (s : PState) : Res PErr (Nat × PState) :=
  match fuel with
  | 0 => .noFuel
  | fuel + 1 =>
    parse_inner_step cfg input (parse_inner cfg input fuel)
      (parse_str cfg input fuel) force_track s
termination_by structural fuel

/-- parser.rs parse with an explicit configuration: fresh parser state,
then Parser::parse, which is parse_inner with force_track = false.  The
fuel is comfortably larger than any recursion the bodies used in the
theorems below can perform. -/
def parse_with (cfg : Config) (input : List Nat) : Res PErr (Nat × PState) :=
  parse_inner cfg input (8 * (input.length + 8)) false ⟨0, [], 0, []⟩

/-- arc.rs parse: Config::default and the ArcBuilder. -/
def decodeArc (input : List Nat) : Res PErr (Nat × PState) :=
  parse_with Config.default input

/-! ## The serde adapter (de.rs) -/

/-- de.rs enum Error (Custom is unreachable in this model). -/
inductive DErr where
  | unexpectedEof
  | offsetOverflow
  | varintOverflow
  | invalidRef (p : Nat)
deriving DecidableEq, Repr

/-- The deserializer state: the Reader cursor and the BTreeSet of
currently-active REFP offsets. -/
structure DState where
  pos : Nat
  seen : List Nat
deriving DecidableEq, Repr

/-- The value a self-describing visitor builds from deserialize_any:
one constructor per visit_x call made by de.rs. -/
inductive SVal where
  | vu8 (n : Nat)
  | vi8 (z : Int)
  | vf32 (bits : Nat)
  | vf64 (bits : Nat)
  | vbytes (bs : List Nat)
  | vseq (xs : List SVal)
  | vnone
  | vsome (x : SVal)
  | vmap (kvs : List (SVal × SVal))

/-- reader.rs read_tag for the adapter. -/
def read_tag_de (input : List Nat) (s : DState) : Res DErr (Nat × DState) :=
  match read_tag_go input (input.length - s.pos) s.pos with
  | .ok (b, pos) => .ok (b, { s with pos := pos })
  | _ => .err .unexpectedEof

/-- reader.rs read_varint through de.rs From(reader::Error): note that
de.rs:71 maps reader VarintOverflow to Error::OffsetOverflow. -/
def read_varint_de (input : List Nat) (s : DState) : Res DErr (Nat × DState) :=
  match parse_varint (input.drop s.pos) with
  | .ok (v, n) => .ok (v, { s with pos := s.pos + n })
  | .error .unexpectedEof => .err .unexpectedEof
  | .error .overflow => .err .offsetOverflow

/-- reader.rs read_varlen for the adapter. -/
def read_varlen_de (input : List Nat) (s : DState) : Res DErr (Nat × DState) :=
  match read_varint_de input s with
  | .ok (v, s) => if v < 2 ^ 64 - 1 then .ok (v, s) else .err .offsetOverflow
  | r => r

/-- reader.rs read_bytes for the adapter. -/
def read_bytes_de (input : List Nat) (len : Nat) (s : DState) :
    Res DErr (List Nat × DState) :=
  if s.pos + len ≥ 2 ^ 64 then .err .offsetOverflow
  else if s.pos + len ≤ input.length then
    .ok ((input.drop s.pos).take len, { s with pos := s.pos + len })
  else .err .unexpectedEof

/-- reader.rs read_f32 / read_f64 for the adapter, as bit patterns. -/
def read_fbits_de (input : List Nat) (width : Nat) (s : DState) :
    Res DErr (Nat × DState) :=
  match read_bytes_de input width s with
  | .ok (bs, s) => .ok (bs.foldr (fun b acc => acc * 256 + b) 0, s)
  | .err e => .err e
  | .panic => .panic
  | .noFuel => .noFuel

/-- de.rs SeqAccess: the visitor pulls count elements, each through
deserialize_any (the function argument). -/
def de_seq_iter (f : DState → Res DErr (SVal × DState)) :
    Nat → List SVal → DState → Res DErr (List SVal × DState)
  | 0, acc, s => .ok (acc, s)
  | n + 1, acc, s => do
    let (x, s) ← f s
    de_seq_iter f n (acc ++ [x]) s

/-- de.rs MapAccess: the visitor pulls count key-value pairs, each side
through deserialize_any. -/
def de_map_iter (f : DState → Res DErr (SVal × DState)) :
    Nat → List (SVal × SVal) → DState →
    Res DErr (List (SVal × SVal) × DState)
  | 0, acc, s => .ok (acc, s)
  | n + 1, acc, s => do
    let (k, s) ← f s
    let (v, s) ← f s
    de_map_iter f n (acc ++ [(k, v)]) s

/-- de.rs Deserializer::deserialize_any, one step, driven by a
self-describing visitor; recursive visits go through the rec argument (the
deserializer one level of fuel down).  The REFP arm is the back-reference
discipline of the adapter: reject an offset already being resolved or
at/after the cursor; otherwise insert the offset into the active set, save
the cursor, seek to offset - 1, visit one value, restore the cursor and
remove the offset.  Seeking computes p - 1 on usize, which underflows
(panic) when the stored offset is 0.  Unhandled tags reach the panic
catch-all of de.rs:152. -/
def de_any_step (input : List Nat)
    (rec : DState → Res DErr (SVal × DState)) (s : DState) :
    Res DErr (SVal × DState) := do
    let (tag, s) ← read_tag_de input s
    let t := tag &&& 0x7f
    if t ≤ 0x0f then
      pure (.vu8 t, s)
    else if t ≤ 0x1f then
      -- de.rs:100 (tag | 0xf0) as i8 : sign-extended to -16..-1
      pure (.vi8 (Int.ofNat (t ||| 0xf0) - 256), s)
    else if t = 0x22 then do
      let (b, s) ← read_fbits_de input 4 s
      pure (.vf32 b, s)
    else if t = 0x23 then do
      let (b, s) ← read_fbits_de input 8 s
      pure (.vf64 b, s)
    else if t = 0x26 ∨ t = 0x27 then do
      let (len, s) ← read_varlen_de input s
      let (bs, s) ← read_bytes_de input len s
      pure (.vbytes bs, s)
    else if 0x60 ≤ t ∧ t ≤ 0x7f then do
      let (bs, s) ← read_bytes_de input (t - 0x60) s
      pure (.vbytes bs, s)
    else if t = 0x2b then do
      let (len, s) ← read_varint_de input s
      let (xs, s) ← de_seq_iter (rec) len [] s
      pure (.vseq xs, s)
    else if 0x40 ≤ t ∧ t ≤ 0x4f then do
      let (xs, s) ← de_seq_iter (rec) (t - 0x40) [] s
      pure (.vseq xs, s)
    else if t = 0x25 ∨ t = 0x39 then
      pure (.vnone, s)
    else if t = 0x28 then do
      let (x, s) ← rec s
      pure (.vsome x, s)
    else if t = 0x29 then do
      let (p, s) ← read_varlen_de input s
      if p ∈ s.seen ∨ s.pos ≤ p then
        .err (.invalidRef p)
      else if p = 0 then
        .panic
      else
        match rec ⟨p - 1, p :: s.seen⟩ with
        | .ok (x, s2) =>
          .ok (.vsome x, ⟨s.pos, s2.seen.filter (fun q => q ≠ p)⟩)
        | r => r
    else if 0x50 ≤ t ∧ t ≤ 0x5f then do
      let (kvs, s) ← de_map_iter (rec) (t - 0x50) [] s
      pure (.vmap kvs, s)
    else
      .panic

/-- de.rs Deserializer::deserialize_any: the step at each fuel level,
with recursive visits taken one level down. -/
def de_any (input : List Nat) (fuel : Nat) (s : DState) :
    Res DErr (SVal × DState) :=
  match fuel with
  | 0 => .noFuel
  | fuel + 1 => de_any_step input (de_any input fuel) s
termination_by structural fuel

/-- Drive deserialize_any from a fresh Deserializer. -/
def deserialize_any_top (input : List Nat) : Res DErr (SVal × DState) :=
  de_any input (8 * (input.length + 8)) ⟨0, []⟩

/-! ## The header reader (header.rs) -/

/-- header.rs enum Error; the two IOError shapes that can arise here are
end of input from a read and the varint-overflow io error. -/
inductive HErr where
  | invalidMagic
  | invalidVersion
  | invalidType
  | suffixTooLarge
  | ioEof
  | ioVarintOverflow
deriving DecidableEq, Repr

/-- constants.rs magics. -/
def MAGIC_V1 : Nat := 0x6C72733D
def MAGIC_V3 : Nat := 0x6C72F33D

/-- header.rs enum DocumentType. -/
inductive DocumentType where
  | uncompressed
  | snappy (compressed_size : Nat)
  | zlib (compressed_size uncompressed_size : Nat)
  | zstd (compressed_size : Nat)
deriving DecidableEq, Repr

/-- header.rs struct Header. -/
structure Header where
  doc_type : DocumentType
  metadata : Option (List Nat)
deriving DecidableEq, Repr

/-- io read_u8 over the remaining input stream. -/
def read_u8_h : List Nat → Except HErr (Nat × List Nat)
  | [] => .error .ioEof
  | b :: rest => .ok (b, rest)

/-- io read_u32 little-endian. -/
def read_u32_le : List Nat → Except HErr (Nat × List Nat)
  | b0 :: b1 :: b2 :: b3 :: rest =>
    .ok (b0 + b1 * 256 + b2 * 65536 + b3 * 16777216, rest)
  | _ => .error .ioEof

/-- VarintReaderExt::read_varint over the stream; end of input surfaces as
an io error, overflow as the io varint-overflow error. -/
def read_varint_h (b : List Nat) : Except HErr (Nat × List Nat) :=
  match parse_varint b with
  | .ok (v, n) => .ok (v, b.drop n)
  | .error .unexpectedEof => .error .ioEof
  | .error .overflow => .error .ioVarintOverflow

/-- io read_exact into a buffer of length n. -/
def read_exact_h (b : List Nat) (n : Nat) :
    Except HErr (List Nat × List Nat) :=
  if n ≤ b.length then .ok (b.take n, b.drop n) else .error .ioEof

/-- header.rs Header::read, first phase: magic, the packed version/type
byte, and the optional suffix.  This is everything the reader consumes
before the version check.  Returns (magic, version_type, metadata, rest). -/
def header_lead (cfg : Config) (b : List Nat) :
    Except HErr (Nat × Nat × Option (List Nat) × List Nat) := do
  let (magic, b) ← read_u32_le b
  if magic = MAGIC_V1 ∨ magic = MAGIC_V3 then do
    let (vt, b) ← read_u8_h b
    let (suffix_len, b) ← read_varint_h b
    if suffix_len > cfg.max_suffix_len then .error .suffixTooLarge
    else if suffix_len > 0 then do
      let (flags, b) ← read_u8_h b
      if suffix_len - 1 > 2 ^ 64 - 1 then .error .suffixTooLarge
      else do
        let (buf, b) ← read_exact_h b (suffix_len - 1)
        pure (magic, vt, if flags &&& 1 ≠ 0 then some buf else none, b)
    else
      pure (magic, vt, none, b)
  else .error .invalidMagic

/-- header.rs Header::read, version check: the only accepted combinations
are proto 2 with the V1 magic and protos 3 and 4 with the V3 magic. -/
def version_check (magic vt : Nat) : Except HErr Nat :=
  if vt &&& 0xf = 2 ∧ magic = MAGIC_V1 then .ok 2
  else if vt &&& 0xf = 3 ∧ magic = MAGIC_V3 then .ok 3
  else if vt &&& 0xf = 4 ∧ magic = MAGIC_V3 then .ok 4
  else .error .invalidVersion

/-- header.rs Header::read, document-type dispatch on the high nibble,
guarded by the protocol version; ZLIB reads uncompressed then compressed
size, SNAPPY and ZSTD one compressed size. -/
def doctype_read (proto vt : Nat) (b : List Nat) :
    Except HErr (DocumentType × List Nat) :=
  let hi := (vt &&& 0xf0) >>> 4
  if hi = 0 then .ok (.uncompressed, b)
  else if hi = 2 ∧ proto ≥ 2 then do
    let (n, b) ← read_varint_h b
    pure (.snappy n, b)
  else if hi = 3 ∧ proto ≥ 3 then do
    let (u, b) ← read_varint_h b
    let (c, b) ← read_varint_h b
    pure (.zlib c u, b)
  else if hi = 4 ∧ proto ≥ 4 then do
    let (n, b) ← read_varint_h b
    pure (.zstd n, b)
  else .error .invalidType

/-- header.rs Header::read: lead phase, then version check, then document
type. -/
def header_read (cfg : Config) (b : List Nat) : Except HErr Header := do
  let (magic, vt, meta, b) ← header_lead cfg b
  let proto ← version_check magic vt
  let (dt, _) ← doctype_read proto vt b
  pure ⟨dt, meta⟩

/-! ## Helper lemmas -/

instance {e a : Type} [DecidableEq e] [DecidableEq a] :
    DecidableEq (Except e a) := fun x y =>
  match x, y with
  | .ok u, .ok v =>
    if h : u = v then .isTrue (by rw [h]) else .isFalse (by simp [h])
  | .error u, .error v =>
    if h : u = v then .isTrue (by rw [h]) else .isFalse (by simp [h])
  | .ok _, .error _ => .isFalse (by simp)
  | .error _, .ok _ => .isFalse (by simp)

theorem res_ok_bind {ε α β : Type} (a : α) (f : α → Res ε β) :
    (Res.ok a >>= f) = f a := rfl

theorem res_err_bind {ε α β : Type} (e : ε) (f : α → Res ε β) :
    ((Res.err e : Res ε α) >>= f) = .err e := rfl

theorem except_ok_bind {ε α β : Type} (a : α) (f : α → Except ε β) :
    (Except.ok a >>= f) = f a := rfl

theorem track_get_insert_self (t : List (Nat × Nat)) (k v : Nat) :
    track_get (track_insert t k v) k = some v := by
  simp [track_get, track_insert]

/-- read_varlen only moves the cursor: tracking table, store and copy
cursor are untouched. -/
theorem read_varlen_frame {input : List Nat} {s s1 : PState} {p : Nat}
    (h : read_varlen input s = .ok (p, s1)) :
    s1.track = s.track ∧ s1.store = s.store ∧ s1.copy_pos = s.copy_pos := by
  unfold read_varlen read_varint at h
  cases hv : parse_varint (input.drop s.pos) with
  | ok vn =>
    obtain ⟨v, n⟩ := vn
    rw [hv] at h
    simp only at h
    split at h
    · cases h
      exact ⟨rfl, rfl, rfl⟩
    · cases h
  | error e =>
    rw [hv] at h
    cases e <;> simp only at h <;> cases h

/-! ## The claims -/

/-- Claim C1 (confirmed): the two-byte body A9 01 is REFP with the track
bit and varint offset 1.  The parser inserts the freshly allocated cell at
key 1 (the 1-based position of the tag byte) before dispatching, so the
REFP lookup of offset 1 finds the cell under construction and the result
is a cell whose ref target is itself. -/
theorem c1_refp_self_reference :
    decodeArc [0xA9, 0x01] =
      .ok (0, ⟨2, [(1, 0)], 0, [Inner.ref 0]⟩) ∧
    ∃ h s, decodeArc [0xA9, 0x01] = .ok (h, s) ∧
      s.store.get? h = some (.ref h) :=
  ⟨by decide, 0, ⟨2, [(1, 0)], 0, [Inner.ref 0]⟩, by decide, by decide⟩

/-- Claim C2 (code_bug): parser.rs:163 writes (tag | 0xf0) as i64, a
u8-to-i64 cast that zero-extends, so the NEG_16 body 10 decodes to
i64(240) and NEG_1 to i64(255) instead of -16 and -1; the serde adapter
(de.rs:100) casts through i8 and does sign-extend the same tag to -16. -/
theorem c2_neg_tags_not_sign_extended :
    decodeArc [0x10] = .ok (0, ⟨1, [], 0, [Inner.i64 240]⟩) ∧
    decodeArc [0x1F] = .ok (0, ⟨1, [], 0, [Inner.i64 255]⟩) ∧
    deserialize_any_top [0x10] = .ok (.vi8 (-16), ⟨1, []⟩) :=
  ⟨by decide, by decide, rfl⟩

/-- Claim C3 (confirmed): a COPY tag read while the copy cursor is
non-zero fails with InvalidCopy; in particular 2F 01 seeks back onto its
own COPY tag and the whole parse fails with InvalidCopy.  The copy cursor
is saved and cleared around a hash body, so the body
43 61 61 51 2F 02 01 2F 04 - a hash reached via COPY whose key is itself a
COPY - parses successfully. -/
theorem c3_copy_nesting_discipline :
    (∀ (input : List Nat) (s : PState), s.copy_pos ≠ 0 →
      do_copy_pre input s = .err .invalidCopy) ∧
    decodeArc [0x2F, 0x01] = .err .invalidCopy ∧
    (decodeArc [0x43, 0x61, 0x61, 0x51, 0x2F, 0x02, 0x01, 0x2F, 0x04]).isOk
      = true := by
  refine ⟨?_, by decide, by decide⟩
  intro input s h
  unfold do_copy_pre
  rw [if_pos h]

theorem c3_copy_nesting_discipline_witness :
    do_copy_pre [0x2F, 0x01] ⟨2, [], 2, []⟩ = .err .invalidCopy :=
  c3_copy_nesting_discipline.1 [0x2F, 0x01] ⟨2, [], 2, []⟩ (by decide)

/-- Claim C4 (code_bug): the catch-all arm of parser.rs parse_inner is
the unimplemented macro, so LONG_DOUBLE, the five reserved tags, MANY,
PACKET_START and EXTEND make parse panic instead of returning
UnknownTag(type); the panic also fires after PAD skipping.  (parser.rs
enum Error has no UnknownTag variant at all; lexer.rs returns UnknownTag
for the RESERVED, PACKET_START and EXTEND tags but also panics on
LONG_DOUBLE and MANY.) -/
theorem c4_fatal_tags_panic_not_unknown_tag :
    decodeArc [0x24] = .panic ∧
    decodeArc [0x34] = .panic ∧
    decodeArc [0x35] = .panic ∧
    decodeArc [0x36] = .panic ∧
    decodeArc [0x37] = .panic ∧
    decodeArc [0x38] = .panic ∧
    decodeArc [0x3C] = .panic ∧
    decodeArc [0x3D] = .panic ∧
    decodeArc [0x3E] = .panic ∧
    decodeArc [0x3F, 0x24] = .panic := by
  decide

/-- Claim C5 (corrected), counterexample: in the body
43 81 AE 02 29 03 the ALIAS tag at 1-based position 3 carries the track
bit and aliases the tracked cell 1 (which holds u64 1).  The claim says
the tracking entry for position 3 must thereafter denote that target, but
it still denotes the discarded placeholder cell 2, whose content stays
Undef, so the later REFP with offset 3 produces ref 2 - a reference to an
Undef placeholder, not to the alias target. -/
theorem c5_alias_tracking_counterexample :
    decodeArc [0x43, 0x81, 0xAE, 0x02, 0x29, 0x03] =
      .ok (0, ⟨6, [(3, 2), (2, 1)], 0,
        [.ref 4, .u64 1, .undef, .ref 2, .array [1, 1, 3]]⟩) ∧
    track_get [(3, 2), (2, 1)] 3 = some 2 ∧
    (2 : Nat) ≠ 1 ∧
    [Inner.ref 4, Inner.u64 1, Inner.undef, Inner.ref 2,
      Inner.array [1, 1, 3]].get? 3 = some (.ref 2) ∧
    [Inner.ref 4, Inner.u64 1, Inner.undef, Inner.ref 2,
      Inner.array [1, 1, 3]].get? 2 = some .undef := by
  refine ⟨by decide, by decide, by decide, by decide, by decide⟩

/-- Claim C6 (code_bug): Config.max_string_len is never read by the
decoder - neither the parser nor the reader checks BINARY or STR_UTF8
lengths against it (no error variant StringTooLarge exists) - so a BINARY
payload longer than the limit still decodes: with max_string_len = 1 the
body 26 02 61 61 (length 2) succeeds. -/
theorem c6_max_string_len_not_enforced :
    (Config.default.with_max_string_len 1).max_string_len = 1 ∧
    parse_with (Config.default.with_max_string_len 1)
        [0x26, 0x02, 0x61, 0x61] =
      .ok (0, ⟨4, [], 0, [Inner.str [0x61, 0x61]]⟩) := by
  refine ⟨by decide, by decide⟩

/-- Claim C8 (code_bug): arc.rs:198 (and arena.rs:62) implement set_false
as storing Bool(true), so the FALSE body 3A decodes to boolean true and is
equal to the decoding of TRUE (3B), where the claim requires Bool(false)
and inequality. -/
theorem c8_false_tag_decodes_true :
    decodeArc [0x3A] = .ok (0, ⟨1, [], 0, [Inner.bool true]⟩) ∧
    decodeArc [0x3B] = .ok (0, ⟨1, [], 0, [Inner.bool true]⟩) ∧
    decodeArc [0x3A] = decodeArc [0x3B] := by
  refine ⟨by decide, by decide, by decide⟩

/-- Claim C10 (code_bug): both back-seek paths compute offset - 1 on
usize.  For the COPY body 2F 00 and the REFP body 29 00 the stored offset
decodes to 0 and the subtraction underflows (modelled as panic, the
behaviour of an overflow-checked build; an unchecked build wraps to
2^64 - 1 and then reports UnexpectedEof). -/
theorem c10_offset_zero_underflow :
    decodeArc [0x2F, 0x00] = .panic ∧
    deserialize_any_top [0x29, 0x00] = .panic :=
  ⟨by decide, rfl⟩

/-- do_copy entry preserves the tracking table and the store: it checks
the copy cursor, reads the varlen offset and moves the two cursors. -/
theorem do_copy_pre_frame {input : List Nat} {s s2 : PState}
    (h : do_copy_pre input s = .ok s2) :
    s2.track = s.track ∧ s2.store = s.store := by
  unfold do_copy_pre at h
  split at h
  · cases h
  · cases hv : read_varlen input s with
    | ok x =>
      obtain ⟨p, s1⟩ := x
      rw [hv] at h
      simp only at h
      split at h
      · cases h
      · cases h
        obtain ⟨ht, hs, _⟩ := read_varlen_frame hv
        exact ⟨ht, hs⟩
    | err e => rw [hv] at h; cases h
    | panic => rw [hv] at h; cases h
    | noFuel => rw [hv] at h; cases h

/-- Claim C5 (corrected), amended: after an ALIAS or COPY tag whose own
tag byte carries the track bit, the parser does not update the tracking
entry: set_alias only rebinds the local handle of the parser, so the
entry for the 1-based position of the tag still denotes the freshly
allocated placeholder cell (whose content stays Undef) while parse_inner
returns the alias target (ALIAS) or the re-parsed value (COPY).  A later
REFP/ALIAS/OBJECTV naming that offset therefore resolves to the
placeholder; the closing conjunct shows this end to end for the body
2B 03 01 AF 03 29 04, where the REFP to the tracked COPY position yields
a reference to the Undef placeholder (cell 2), not to the copied value
(cell 3). -/
theorem c5_alias_tracking_amended :
    (∀ (cfg : Config) (input : List Nat) (fuel : Nat) (ft : Bool)
      (s s1 s2 : PState) (tag p o : Nat),
      read_tag input s = .ok (tag, s1) →
      tag &&& 0x7f = 0x2e →
      tag &&& 0x80 ≠ 0 →
      read_varlen input
        { s1 with store := s1.store ++ [Inner.undef],
                  track := track_insert s1.track s1.pos s1.store.length }
        = .ok (p, s2) →
      track_get s2.track p = some o →
      parse_inner cfg input (fuel + 1) ft s = .ok (o, s2) ∧
      track_get s2.track s1.pos = some s1.store.length ∧
      s2.store.get? s1.store.length = some Inner.undef) ∧
    (∀ (cfg : Config) (input : List Nat) (fuel : Nat) (ft : Bool)
      (s s1 s2 s3 : PState) (tag c : Nat),
      read_tag input s = .ok (tag, s1) →
      tag &&& 0x7f = 0x2f →
      tag &&& 0x80 ≠ 0 →
      do_copy_pre input
        { s1 with store := s1.store ++ [Inner.undef],
                  track := track_insert s1.track s1.pos s1.store.length }
        = .ok s2 →
      parse_inner cfg input fuel false s2 = .ok (c, s3) →
      parse_inner cfg input (fuel + 1) ft s = .ok (c, do_copy_post s3) ∧
      track_get s2.track s1.pos = some s1.store.length ∧
      s2.store.get? s1.store.length = some Inner.undef) ∧
    decodeArc [0x2B, 0x03, 0x01, 0xAF, 0x03, 0x29, 0x04] =
      .ok (0, ⟨7, [(4, 2)], 0,
        [.array [1, 3, 4], .u64 1, .undef, .u64 1, .ref 2]⟩) := by
  refine ⟨?_, ?_, by decide⟩
  · intro cfg input fuel ft s s1 s2 tag p o h1 h2 h3 h4 h5
    obtain ⟨ht, hs, _⟩ := read_varlen_frame h4
    refine ⟨?_, ?_, ?_⟩
    · have hstep : parse_inner cfg input (fuel + 1) ft s =
          parse_inner_step cfg input (parse_inner cfg input fuel)
            (parse_str cfg input fuel) ft s := rfl
      rw [hstep]
      unfold parse_inner_step
      rw [h1]
      rw [res_ok_bind]
      simp only [new_cell]
      rw [if_pos (Or.inl h3)]
      simp only [h2]
      norm_num
      rw [h4, res_ok_bind, h5]
      rfl
    · rw [ht]
      exact track_get_insert_self s1.track s1.pos s1.store.length
    · rw [hs]
      simp [List.get?_eq_getElem?, List.getElem?_concat_length]
  · intro cfg input fuel ft s s1 s2 s3 tag c h1 h2 h3 h4 h5
    obtain ⟨ht, hs⟩ := do_copy_pre_frame h4
    refine ⟨?_, ?_, ?_⟩
    · have hstep : parse_inner cfg input (fuel + 1) ft s =
          parse_inner_step cfg input (parse_inner cfg input fuel)
            (parse_str cfg input fuel) ft s := rfl
      rw [hstep]
      unfold parse_inner_step
      rw [h1]
      rw [res_ok_bind]
      simp only [new_cell]
      rw [if_pos (Or.inl h3)]
      simp only [h2]
      norm_num
      rw [h4, res_ok_bind, h5, res_ok_bind]
      rfl
    · rw [ht]
      exact track_get_insert_self s1.track s1.pos s1.store.length
    · rw [hs]
      simp [List.get?_eq_getElem?, List.getElem?_concat_length]

theorem c5_alias_tracking_amended_witness :
    (parse_inner Config.default [0xAE, 0x09] 5 false
        ⟨0, [(9, 0)], 0, [Inner.u64 7]⟩ =
      .ok (0, ⟨2, [(1, 1), (9, 0)], 0, [Inner.u64 7, Inner.undef]⟩) ∧
    track_get [(1, 1), (9, 0)] 1 = some 1 ∧
    [Inner.u64 7, Inner.undef].get? 1 = some Inner.undef) ∧
    (parse_inner Config.default [0xAF, 0x02] 5 false ⟨0, [], 0, []⟩ =
      .ok (1, ⟨2, [(1, 0)], 0, [Inner.undef, Inner.u64 2]⟩) ∧
    track_get [(1, 0)] 1 = some 0 ∧
    [Inner.undef].get? 0 = some Inner.undef) :=
  ⟨c5_alias_tracking_amended.1 Config.default [0xAE, 0x09] 4 false
    ⟨0, [(9, 0)], 0, [Inner.u64 7]⟩
    ⟨1, [(9, 0)], 0, [Inner.u64 7]⟩
    ⟨2, [(1, 1), (9, 0)], 0, [Inner.u64 7, Inner.undef]⟩
    0xAE 9 0 (by decide) (by decide) (by decide) (by decide) (by decide),
   c5_alias_tracking_amended.2.1 Config.default [0xAF, 0x02] 4 false
    ⟨0, [], 0, []⟩
    ⟨1, [], 0, []⟩
    ⟨1, [(1, 0)], 2, [Inner.undef]⟩
    ⟨2, [(1, 0)], 2, [Inner.undef, Inner.u64 2]⟩
    0xAF 1 (by decide) (by decide) (by decide) (by decide) (by decide)⟩

/-- Claim C9 (confirmed): when deserialize_any reads a REFP tag and then
its varlen offset p, the REFP itself is rejected with InvalidRef(p)
exactly when p is already in the set of currently-active offsets or p is
at or past the current read position; otherwise (for offsets p >= 1, the
only well-formed ones; p = 0 underflows the seek, see C10) the adapter
inserts p into the active set, saves the cursor, seeks to p - 1, visits
one value, then restores the cursor and removes p from the active set,
wrapping the visited value in Some.  An error from the inner visit is
propagated after the restore. -/
theorem c9_refp_active_set_discipline (input : List Nat) (fuel : Nat)
    (s s1 s2 : DState) (tag p : Nat)
    (h1 : read_tag_de input s = .ok (tag, s1))
    (h2 : tag &&& 0x7f = 0x29)
    (h3 : read_varlen_de input s1 = .ok (p, s2)) :
    (p ∈ s2.seen ∨ s2.pos ≤ p →
      de_any input (fuel + 1) s = .err (.invalidRef p)) ∧
    (¬(p ∈ s2.seen ∨ s2.pos ≤ p) → 1 ≤ p →
      de_any input (fuel + 1) s =
        match de_any input fuel ⟨p - 1, p :: s2.seen⟩ with
        | .ok (x, s3) =>
          .ok (.vsome x, ⟨s2.pos, s3.seen.filter (fun q => q ≠ p)⟩)
        | r => r) := by
  have hstep : de_any input (fuel + 1) s =
      de_any_step input (de_any input fuel) s := rfl
  constructor
  · intro hcond
    rw [hstep]
    unfold de_any_step
    rw [h1, res_ok_bind]
    simp only [h2]
    norm_num
    rw [h3, res_ok_bind]
    rw [if_pos hcond]
  · intro hcond hp
    rw [hstep]
    unfold de_any_step
    rw [h1, res_ok_bind]
    simp only [h2]
    norm_num
    rw [h3, res_ok_bind]
    rw [if_neg hcond, if_neg (by omega : ¬p = 0)]

theorem c9_refp_active_set_discipline_witness :
    de_any [0x29, 0x05] 7 ⟨0, []⟩ = .err (.invalidRef 5) :=
  (c9_refp_active_set_discipline [0x29, 0x05] 6 ⟨0, []⟩ ⟨1, []⟩ ⟨2, []⟩
    0x29 5 rfl rfl rfl).1 (by decide)

theorem except_err_bind {ε α β : Type} (e : ε) (f : α → Except ε β) :
    ((Except.error e : Except ε α) >>= f) = .error e := rfl

/-- read_varint_h can only fail with the two io-derived errors. -/
theorem read_varint_h_err {b : List Nat} {e : HErr}
    (h : read_varint_h b = .error e) :
    e = .ioEof ∨ e = .ioVarintOverflow := by
  unfold read_varint_h at h
  cases hv : parse_varint b with
  | ok x =>
    obtain ⟨v, n⟩ := x
    rw [hv] at h
    cases h
  | error e2 =>
    rw [hv] at h
    cases e2 <;> injection h with h2 <;> subst h2
    · right; rfl
    · left; rfl

/-- The document-type stage never reports InvalidVersion. -/
theorem doctype_read_ne_invalid_version (proto vt : Nat) (b : List Nat) :
    doctype_read proto vt b ≠ .error .invalidVersion := by
  unfold doctype_read
  dsimp only
  split
  · simp
  · split
    · cases hv : read_varint_h b with
      | ok x =>
        obtain ⟨n, b2⟩ := x
        simp [hv, except_ok_bind]
      | error e =>
        rcases read_varint_h_err hv with he | he <;> subst he <;>
          simp [hv, except_err_bind]
    · split
      · cases hv : read_varint_h b with
        | ok x =>
          obtain ⟨u, b2⟩ := x
          cases hv2 : read_varint_h b2 with
          | ok y =>
            obtain ⟨c, b3⟩ := y
            simp [hv, hv2, except_ok_bind]
          | error e =>
            rcases read_varint_h_err hv2 with he | he <;> subst he <;>
              simp [hv, hv2, except_ok_bind, except_err_bind]
        | error e =>
          rcases read_varint_h_err hv with he | he <;> subst he <;>
            simp [hv, except_err_bind]
      · split
        · cases hv : read_varint_h b with
          | ok x =>
            obtain ⟨n, b2⟩ := x
            simp [hv, except_ok_bind]
          | error e =>
            rcases read_varint_h_err hv with he | he <;> subst he <;>
              simp [hv, except_err_bind]
        · simp

/-- Claim C7 (corrected), amended: Header::read accepts exactly the three
version/magic combinations (proto 2 with the V1 magic, protos 3 and 4
with the V3 magic), and a header whose lead phase (magic, version byte
and suffix) reads successfully returns InvalidVersion exactly when its
combination is not among the three.  When the suffix phase itself fails
(oversized suffix or truncated input) that earlier error is reported
instead, because the suffix is consumed before the version check. -/
theorem c7_version_check_amended (cfg : Config) (b : List Nat)
    (magic vt : Nat) (meta : Option (List Nat)) (rest : List Nat)
    (h : header_lead cfg b = .ok (magic, vt, meta, rest)) :
    (header_read cfg b = .error .invalidVersion ↔
      ¬((vt &&& 0xf = 2 ∧ magic = MAGIC_V1) ∨
        (vt &&& 0xf = 3 ∧ magic = MAGIC_V3) ∨
        (vt &&& 0xf = 4 ∧ magic = MAGIC_V3))) := by
  by_cases hacc : ((vt &&& 0xf = 2 ∧ magic = MAGIC_V1) ∨
      (vt &&& 0xf = 3 ∧ magic = MAGIC_V3) ∨
      (vt &&& 0xf = 4 ∧ magic = MAGIC_V3))
  · have hvc : ∃ pr, version_check magic vt = .ok pr := by
      unfold version_check
      rcases hacc with h12 | h12 | h12
      · exact ⟨2, by rw [if_pos h12]⟩
      · refine ⟨3, ?_⟩
        rw [if_neg (fun hc => by omega), if_pos h12]
      · refine ⟨4, ?_⟩
        rw [if_neg (fun hc => by omega),
          if_neg (fun hc => by omega), if_pos h12]
    obtain ⟨pr, hvc⟩ := hvc
    simp only [header_read, h, except_ok_bind]
    rw [hvc, except_ok_bind]
    cases hdt : doctype_read pr vt rest with
    | ok y =>
      obtain ⟨dt, b2⟩ := y
      rw [except_ok_bind]
      simp [hacc, pure, Except.pure]
    | error e =>
      have hne : e ≠ .invalidVersion := by
        intro he
        exact doctype_read_ne_invalid_version pr vt rest (he ▸ hdt)
      rw [except_err_bind]
      simp [hacc, hne]
  · have hvc : version_check magic vt = .error .invalidVersion := by
      unfold version_check
      obtain ⟨hA, hBC⟩ := not_or.mp hacc
      obtain ⟨hB, hC⟩ := not_or.mp hBC
      rw [if_neg hA, if_neg hB, if_neg hC]
    simp only [header_read, h, except_ok_bind]
    rw [hvc, except_err_bind]
    simp [hacc]

theorem c7_version_check_amended_witness :
    header_read Config.default [0x3D, 0x73, 0x72, 0x6C, 0x03, 0x00] =
      .error .invalidVersion :=
  (c7_version_check_amended Config.default
      [0x3D, 0x73, 0x72, 0x6C, 0x03, 0x00]
      0x6C72733D 0x03 none [] (by decide)).mpr (by decide)

/-- Claim C7 (corrected), counterexample: a header with a valid V1 magic
and the unaccepted combination proto 3 / V1 magic does not return
InvalidVersion when its suffix length (1000001) exceeds max_suffix_len:
the suffix is consumed before the version check, so SuffixTooLarge wins. -/
theorem c7_invalid_version_counterexample :
    header_read Config.default
        [0x3D, 0x73, 0x72, 0x6C, 0x03, 0xC1, 0x84, 0x3D] =
      .error .suffixTooLarge ∧
    header_read Config.default
        [0x3D, 0x73, 0x72, 0x6C, 0x03, 0xC1, 0x84, 0x3D] ≠
      .error .invalidVersion := by
  refine ⟨by decide, by decide⟩

end Sereal
